import Mathlib

/-!
Shallow embedding of the YouTube SEO workbench repository.

The repository consists of a Next.js API route (`POST` in
`src/app/api/analyze/route.ts`) and a client page (`src/app/page.tsx`).
The route delegates to the text-statistics core `analyzeChannelsAndSuggest`
from `@/lib/seo`; that library file is not part of the sources here, so the
core is modelled from the specification (see the doc comments marked
`Modelled from the spec:`).  Strings are modelled as lists of characters so
that trimming, splitting and tokenising are ordinary list functions.
-/

/-- JavaScript strings, modelled as lists of characters. -/
abbrev JStr : Type := List Char

/-- The JavaScript whitespace characters relevant to `String.prototype.trim`
and to word splitting: space, tab, line feed, carriage return, vertical tab,
form feed and no-break space. -/
def isJsWs (c : Char) : Bool :=
  c == ' ' || c == '\t' || c == '\n' || c == '\r' ||
  c == '\x0b' || c == '\x0c' || c == ' '

/-- Helper for `splitNl`: accumulates the current segment (reversed). -/
def splitNlAux : JStr → JStr → List JStr
  | [], acc => [acc.reverse]
  | ch :: rest, acc =>
    if ch == '\n' then acc.reverse :: splitNlAux rest []
    else splitNlAux rest (ch :: acc)

/-- `s.split("\n")` of JavaScript: splits on line feeds, keeping empty
segments (so the empty string yields one empty segment). -/
def splitNl (s : JStr) : List JStr := splitNlAux s []

/-- `s.trim()` of JavaScript: drop leading and trailing whitespace. -/
def jsTrim (s : JStr) : JStr :=
  ((s.dropWhile isJsWs).reverse.dropWhile isJsWs).reverse

/-- Helper for `tokenize`: splits on whitespace, dropping empty words; the
current word is accumulated in reverse. -/
def wordsAux : JStr → JStr → List JStr
  | [], acc => if acc.isEmpty then [] else [acc.reverse]
  | ch :: rest, acc =>
    if isJsWs ch then
      if acc.isEmpty then wordsAux rest [] else acc.reverse :: wordsAux rest []
    else wordsAux rest (ch :: acc)

/-- Modelled from the spec: tokenisation of a title or description into
lowercase words.  The words are obtained by lowercasing and splitting on
whitespace; the spec leaves the exact delimiter/stopword configuration open
(design note in the spec calls them configurable parameters). -/
def tokenize (s : JStr) : List JStr := wordsAux (s.map Char.toLower) []

/-- A frequency mapping, as an association list in first-seen key order
(this is the insertion order of a JavaScript object / `Record<string, number>`). -/
abbrev FreqMap : Type := List (JStr × Nat)

/-- Add `k` occurrences of `tok` to a frequency map, appending a new key at
the end when it is not yet present (first-seen order). -/
def addCount : FreqMap → JStr → Nat → FreqMap
  | [], tok, k => [(tok, k)]
  | (x, c) :: rest, tok, k =>
    if x = tok then (x, c + k) :: rest else (x, c) :: addCount rest tok k

/-- Count the occurrences of each token, keys in first-seen order. -/
def countTokens (toks : List JStr) : FreqMap :=
  toks.foldl (fun m tok => addCount m tok 1) []

/-- The count recorded for a token (0 when absent); for maps with duplicate
keys the first entry wins, as a JavaScript object lookup would. -/
def lookupCount : FreqMap → JStr → Nat
  | [], _ => 0
  | (x, c) :: rest, t => if x = t then c else lookupCount rest t

/-- The sum of all counts recorded under a token (coincides with
`lookupCount` on maps without duplicate keys). -/
def sumCounts : FreqMap → JStr → Nat
  | [], _ => 0
  | (x, c) :: rest, t => (if x = t then c else 0) + sumCounts rest t

/-- One insertion step of a stable insertion sort by descending count: the
new entry goes in front of the first entry whose count is not larger.  This
is the unique result a stable sort with comparator `(a, b) => b[1] - a[1]`
(ECMAScript `Array.prototype.sort` is stable) can produce. -/
def insertDesc (p : JStr × Nat) : FreqMap → FreqMap
  | [] => [p]
  | q :: rest => if q.2 ≤ p.2 then p :: q :: rest else q :: insertDesc p rest

/-- Stable sort of a frequency map by descending count (ties keep their
original, i.e. first-seen, order). -/
def sortDesc (m : FreqMap) : FreqMap := m.foldr insertDesc []

/-- Modelled from the spec: the fixed top-N cutoff for ranked lists
("e.g., top 10–20"). -/
def topN : Nat := 10

/-- Modelled from the spec: ranking of a frequency map — sort descending by
count with first-seen tie-break, truncate to `n`, keep the tokens. -/
def rank (n : Nat) (m : FreqMap) : List JStr :=
  ((sortDesc m).take n).map Prod.fst

/-- Merge one frequency map into an accumulator by summing counts of
identical tokens. -/
def mergeInto (acc m : FreqMap) : FreqMap :=
  m.foldl (fun a p => addCount a p.1 p.2) acc

/-- Merge a list of frequency maps by summing counts of identical tokens. -/
def mergeAll (ms : List FreqMap) : FreqMap := ms.foldl mergeInto []

/-- A frequency map has no duplicate keys. -/
def nodupKeys (m : FreqMap) : Prop := (m.map Prod.fst).Nodup

/-- A frequency map is sorted by non-increasing count. -/
def sortedDesc (l : FreqMap) : Prop :=
  List.Pairwise (fun a b => b.2 ≤ a.2) l

/-- Modelled from the spec: the stopword list, a configurable parameter. -/
def stopwords : List JStr :=
  ["the", "a", "an", "and", "to", "of", "in", "for", "on", "with"].map String.data

/-- A token is a hashtag when it begins with `#`. -/
def isHashtag : JStr → Bool
  | '#' :: _ => true
  | _ => false

/-- Modelled from the spec: a ChannelSample — channel identity plus the raw
(title, description) pairs collected from the channel's videos. -/
structure ChannelSample where
  channelId : JStr
  channelUrl : JStr
  channelTitle : JStr
  videos : List (JStr × JStr)
deriving DecidableEq

/-- The titles of a channel's sampled videos. -/
def channelTitles (c : ChannelSample) : List JStr := c.videos.map Prod.fst

/-- The descriptions of a channel's sampled videos. -/
def channelDescs (c : ChannelSample) : List JStr := c.videos.map Prod.snd

/-- All tokens of a channel's titles and descriptions. -/
def allTokens (c : ChannelSample) : List JStr :=
  (channelTitles c ++ channelDescs c).flatMap tokenize

/-- Keyword tokens: non-stopword, non-hashtag tokens across titles and
descriptions. -/
def keywordTokens (c : ChannelSample) : List JStr :=
  (allTokens c).filter (fun t => !isHashtag t && !stopwords.contains t)

/-- Hashtag tokens: the tokens beginning with `#`. -/
def hashtagTokens (c : ChannelSample) : List JStr :=
  (allTokens c).filter isHashtag

/-- Opening words: the first token of each title. -/
def firstWordTokens (c : ChannelSample) : List JStr :=
  (channelTitles c).filterMap (fun t => (tokenize t).head?)

/-- Modelled from the spec: a channel yields no parseable text when
tokenising all of its titles and descriptions produces no tokens. -/
def noParseableText (c : ChannelSample) : Bool := (allTokens c).isEmpty

/-- Modelled from the spec: average title length — the arithmetic mean of
the title character counts, 0 when the channel has no titles. -/
def avgLen (ts : List JStr) : ℚ :=
  if ts.isEmpty then 0 else ((ts.map List.length).sum : ℚ) / (ts.length : ℚ)

/-- The per-channel analysis record, exactly the `ChannelAnalysis` type of
`page.tsx` (lines 5–15); `number` is modelled as `ℚ`. -/
structure ChannelAnalysis where
  channelId : JStr
  channelUrl : JStr
  channelTitle : JStr
  sampleTitles : List JStr
  sampleDescriptions : List JStr
  averageTitleLength : ℚ
  topKeywords : List JStr
  commonHashtags : List JStr
  firstWordFrequency : FreqMap
deriving DecidableEq

/-- The ranked (sorted, truncated) keyword frequency map of one channel. -/
def rankedKeywordFreq (c : ChannelSample) : FreqMap :=
  (sortDesc (countTokens (keywordTokens c))).take topN

/-- The ranked hashtag frequency map of one channel. -/
def rankedHashtagFreq (c : ChannelSample) : FreqMap :=
  (sortDesc (countTokens (hashtagTokens c))).take topN

/-- The ranked opening-word frequency map of one channel. -/
def rankedFirstWordFreq (c : ChannelSample) : FreqMap :=
  (sortDesc (countTokens (firstWordTokens c))).take topN

/-- Modelled from the spec: per-channel analysis — sample titles and
descriptions truncated for display, average title length, ranked keyword
and hashtag lists, opening-word frequency map. -/
def analyzeChannel (c : ChannelSample) : ChannelAnalysis :=
  { channelId := c.channelId
    channelUrl := c.channelUrl
    channelTitle := c.channelTitle
    sampleTitles := (channelTitles c).take 10
    sampleDescriptions := (channelDescs c).take 10
    averageTitleLength := avgLen (channelTitles c)
    topKeywords := (rankedKeywordFreq c).map Prod.fst
    commonHashtags := (rankedHashtagFreq c).map Prod.fst
    firstWordFrequency := countTokens (firstWordTokens c) }

/-- The target video, exactly the `targetVideo` shape of the `ApiResponse`
type in `page.tsx` (lines 29–34). -/
structure TargetVideo where
  videoId : JStr
  title : JStr
  description : JStr
  channelTitle : Option JStr
deriving DecidableEq

/-- The SEO recommendation, exactly the `SeoRecommendation` type of
`page.tsx` (lines 17–22). -/
structure SeoRecommendation where
  recommendedTitle : JStr
  recommendedDescription : JStr
  recommendedHashtags : List JStr
  keywordHighlights : List JStr
deriving DecidableEq

/-- Modelled from the spec: the core's input — an ordered sequence of
ChannelSample plus an optional already-resolved TargetVideo (resolution of
URLs to samples is the external data-fetching collaborator's concern). -/
structure AnalyzeInput where
  channels : List ChannelSample
  targetVideo : Option TargetVideo
deriving DecidableEq

/-- The analysis result / parsed response, exactly the `ApiResponse` type of
`page.tsx` (lines 24–37): the optional fields are `Option`s, and the
successful core result carries `error := none`. -/
structure ApiResponse where
  channelAnalyses : List ChannelAnalysis
  aggregateKeywords : List JStr
  aggregateHashtags : List JStr
  aggregateFirstWords : List JStr
  targetVideo : Option TargetVideo
  recommendation : Option SeoRecommendation
  error : Option JStr
deriving DecidableEq

/-- Modelled from the spec: the error taxonomy of the core — InvalidInput
(empty or unparseable channel list). -/
inductive SeoError where
  | invalidInput
deriving DecidableEq

/-- Modelled from the spec: the descriptive message an error carries to the
caller. -/
def errorMessage : SeoError → JStr
  | .invalidInput => "No channel samples could be analyzed.".data

/-- Modelled from the spec: the character-length bound for the recommended
title, matching the observed average title length across all channels. -/
def titleLenBound (cs : List ChannelSample) : Nat :=
  let ts := cs.flatMap channelTitles
  if ts.isEmpty then 70 else (ts.map List.length).sum / ts.length

/-- Modelled from the spec: recommendation synthesis — a title combining the
target's own title tokens with high-rank aggregate keywords bounded by the
observed average length, a templated description, deduplicated hashtags
bounded to 5, and keyword highlights drawn from the aggregate keywords. -/
def synthesizeRecommendation (aggK aggH : List JStr) (maxLen : Nat)
    (tv : TargetVideo) : SeoRecommendation :=
  { recommendedTitle :=
      (List.intercalate [' '] ((tokenize tv.title ++ aggK.take 3).eraseDups)).take maxLen
    recommendedDescription :=
      tv.description ++ '\n' :: List.intercalate [' '] aggK
    recommendedHashtags := aggH.eraseDups.take 5
    keywordHighlights :=
      ((aggK.filter (fun k =>
          (tokenize tv.title ++ tokenize tv.description).contains k)) ++ aggK).eraseDups.take 5 }

/-- The aggregate keyword map: per-channel ranked keyword maps merged by
summing counts of identical tokens. -/
def aggKeywordMap (cs : List ChannelSample) : FreqMap :=
  mergeAll (cs.map rankedKeywordFreq)

/-- The aggregate hashtag map. -/
def aggHashtagMap (cs : List ChannelSample) : FreqMap :=
  mergeAll (cs.map rankedHashtagFreq)

/-- The aggregate opening-word map. -/
def aggFirstWordMap (cs : List ChannelSample) : FreqMap :=
  mergeAll (cs.map rankedFirstWordFreq)

/-- Modelled from the spec: the successful analysis result — per-channel
analyses, the three aggregate lists re-ranked by the same rule and
truncated to top-N, the target video echoed back, and a recommendation
exactly when a target video is present. -/
def analyzeCore (input : AnalyzeInput) : ApiResponse :=
  { channelAnalyses := input.channels.map analyzeChannel
    aggregateKeywords := rank topN (aggKeywordMap input.channels)
    aggregateHashtags := rank topN (aggHashtagMap input.channels)
    aggregateFirstWords := rank topN (aggFirstWordMap input.channels)
    targetVideo := input.targetVideo
    recommendation := input.targetVideo.map
      (synthesizeRecommendation
        (rank topN (aggKeywordMap input.channels))
        (rank topN (aggHashtagMap input.channels))
        (titleLenBound input.channels))
    error := none }

/-- Modelled from the spec: `analyzeChannelsAndSuggest` — fails with
InvalidInput when no channel samples are supplied or none yields parseable
text, otherwise produces the analysis result; a pure function of its
input. -/
def analyzeChannelsAndSuggest (input : AnalyzeInput) :
    Except SeoError ApiResponse :=
  if input.channels.isEmpty || input.channels.all noParseableText then
    .error .invalidInput
  else .ok (analyzeCore input)

/-- A thrown JavaScript value: either an `Error` object carrying a message,
or any other value. -/
inductive JsThrown where
  | errorObj (message : JStr)
  | other
deriving DecidableEq

/-- The message the route handler extracts from a thrown value
(`error instanceof Error ? error.message : "Unexpected error"`). -/
def thrownMessage : JsThrown → JStr
  | .errorObj m => m
  | .other => "Unexpected error".data

/-- The body of the route's HTTP response: either the serialized analysis
result or a bare `{ error: message }` object. -/
inductive RouteBody where
  | result (r : ApiResponse)
  | errorBody (message : JStr)
deriving DecidableEq

/-- An HTTP response of the route handler. -/
structure HttpResponse where
  status : Nat
  body : RouteBody
deriving DecidableEq

/-- The `POST` handler of `src/app/api/analyze/route.ts`: parse the body,
run the analysis, serialize the result with status 200; any thrown value is
mapped to `{ error: message }` with status 400.  Body parsing and the
external resolution of channel references are collapsed into the
`Except JsThrown AnalyzeInput` argument; a failing analysis throws an
`Error` whose message is the error's descriptive message. -/
def POST (payload : Except JsThrown AnalyzeInput) : HttpResponse :=
  match payload with
  | .error e => { status := 400, body := .errorBody (thrownMessage e) }
  | .ok input =>
    match analyzeChannelsAndSuggest input with
    | .ok r => { status := 200, body := .result r }
    | .error se => { status := 400, body := .errorBody (errorMessage se) }

/-- The entries displayed by `prettyFrequency` in `page.tsx` (lines 46–52):
`Object.entries(freq)` in insertion order, stably sorted by
`(a, b) => b[1] - a[1]`, then `slice(0, 6)`. -/
def prettyEntries (freq : FreqMap) : FreqMap := (sortDesc freq).take 6

/-- One displayed entry of `prettyFrequency`: the upper-cased word followed
by its count in parentheses. -/
def renderEntry (p : JStr × Nat) : JStr :=
  p.1.map Char.toUpper ++ " (".data ++ (Nat.repr p.2).data ++ ")".data

/-- `prettyFrequency` of `page.tsx`: the joined rendering of the sorted,
truncated entries, or a placeholder when there are none. -/
def prettyFrequency (freq : FreqMap) : JStr :=
  if (prettyEntries freq).isEmpty then "No pattern data yet.".data
  else List.intercalate ", ".data ((prettyEntries freq).map renderEntry)

/-- The request body `handleAnalyze` serializes: `channels` plus an optional
`targetVideoUrl` (absent when `undefined`, since `JSON.stringify` drops
`undefined` fields). -/
structure RequestBody where
  channels : List JStr
  targetVideoUrl : Option JStr
deriving DecidableEq

/-- The `channels` memo of `page.tsx` (lines 61–68): the textarea content
split on newlines, each line trimmed, blank lines dropped
(`filter(Boolean)`). -/
def channelsOf (channelsInput : JStr) : List JStr :=
  ((splitNl channelsInput).map jsTrim).filter (fun l => !l.isEmpty)

/-- The body built in `handleAnalyze` (lines 86–89):
`{ channels, targetVideoUrl: videoUrl.trim() || undefined }` — the trimmed
video URL when it is non-empty, absent otherwise. -/
def buildRequestBody (channelsInput videoUrl : JStr) : RequestBody :=
  { channels := channelsOf channelsInput
    targetVideoUrl :=
      if (jsTrim videoUrl).isEmpty then none else some (jsTrim videoUrl) }

/-- The UI state of `page.tsx` touched by `handleAnalyze`: the loading flag
and the `error` and `data` `useState` cells. -/
structure UIState where
  isLoading : Bool
  error : Option JStr
  data : Option ApiResponse
deriving DecidableEq

/-- The outcome of the `fetch` + `response.json()` step: a response with its
`ok` flag and parsed JSON body, or a thrown value (network failure or JSON
parse error). -/
inductive FetchResult where
  | ok (respOk : Bool) (json : ApiResponse)
  | throws (e : JsThrown)
deriving DecidableEq

/-- The message shown when the channel list is empty (line 72). -/
def addChannelMsg : JStr := "Add at least one channel to analyze.".data

/-- The fallback message for a failed analysis (line 94). -/
def failedMsg : JStr := "Failed to analyze channels.".data

/-- The message the page's catch block extracts from a thrown value
(lines 98–99). -/
def uiThrownMessage : JsThrown → JStr
  | .errorObj m => m
  | .other => "Unexpected error occurred.".data

/-- JavaScript truthiness of the optional `json.error` string: present and
non-empty. -/
def jsonErrTruthy : Option JStr → Bool
  | none => false
  | some s => !s.isEmpty

/-- `json.error || fallback`: the error string when truthy, else the
fallback. -/
def errOrFallback : Option JStr → JStr → JStr
  | none, fb => fb
  | some s, fb => if s.isEmpty then fb else s

/-- `handleAnalyze` of `page.tsx` (lines 70–104) as a state transformer.
With empty channels it sets the error message and returns without sending a
request (data and loading flag untouched).  Otherwise it resets error and
data, sends the request body, and on each fetch outcome ends with
`isLoading = false` (the `finally` block): a thrown value or a non-ok /
error-carrying response sets `error` (the `throw new Error(...)` on line 94
is caught by the same catch block), a clean response sets `data`.  Returns
the final state together with the request body sent, when one was sent. -/
def handleAnalyze (s : UIState) (channelsInput videoUrl : JStr)
    (f : FetchResult) : UIState × Option RequestBody :=
  let chans := channelsOf channelsInput
  if chans.isEmpty then
    ({ s with error := some addChannelMsg }, none)
  else
    let body := buildRequestBody channelsInput videoUrl
    match f with
    | .throws e =>
      ({ isLoading := false, error := some (uiThrownMessage e), data := none },
       some body)
    | .ok respOk json =>
      if !respOk || jsonErrTruthy json.error then
        ({ isLoading := false,
           error := some (errOrFallback json.error failedMsg),
           data := none },
         some body)
      else
        ({ isLoading := false, error := none, data := some json }, some body)

/-- An empty analysis result, used as a concrete stored response. -/
def emptyApiResponse : ApiResponse :=
  { channelAnalyses := [], aggregateKeywords := [], aggregateHashtags := [],
    aggregateFirstWords := [], targetVideo := none, recommendation := none,
    error := none }

/-- A concrete channel sample with parseable text. -/
def sampleChannel : ChannelSample :=
  { channelId := "c1".data
    channelUrl := "https://www.youtube.com/@c1".data
    channelTitle := "Channel One".data
    videos := [("News Today".data, "daily #news update".data)] }

/-- A concrete resolved target video. -/
def sampleTarget : TargetVideo :=
  { videoId := "v1".data
    title := "My Video".data
    description := "about news".data
    channelTitle := none }

/-- A concrete analysis input with one channel and a target video. -/
def sampleInput : AnalyzeInput :=
  { channels := [sampleChannel], targetVideo := some sampleTarget }

/-- A concrete channel sample with two titles of lengths 2 and 4. -/
def twoTitleChannel : ChannelSample :=
  { channelId := "c2".data
    channelUrl := "https://www.youtube.com/@c2".data
    channelTitle := "Channel Two".data
    videos := [("ab".data, "".data), ("abcd".data, "".data)] }

/-! ## Counting lemmas for the aggregation -/

theorem lookupCount_addCount (m : FreqMap) (tok : JStr) (k : Nat) (t : JStr) :
    lookupCount (addCount m tok k) t =
      lookupCount m t + (if tok = t then k else 0) := by
  induction m with
  | nil => by_cases h : tok = t <;> simp [addCount, lookupCount, h]
  | cons p rest ih =>
    obtain ⟨x, c⟩ := p
    by_cases hx : x = tok
    · subst hx
      by_cases h : x = t <;> simp [addCount, lookupCount, h]
    · by_cases h : x = t
      · have htok : ¬ tok = t := fun he => hx (h.trans he.symm)
        have htk : ¬ t = tok := fun he => htok he.symm
        simp [addCount, lookupCount, hx, h, htok, htk]
      · simp [addCount, lookupCount, hx, h, ih]

theorem lookupCount_mergeInto (m acc : FreqMap) (t : JStr) :
    lookupCount (mergeInto acc m) t = lookupCount acc t + sumCounts m t := by
  induction m generalizing acc with
  | nil => simp [mergeInto, sumCounts]
  | cons p rest ih =>
    obtain ⟨x, c⟩ := p
    show lookupCount (mergeInto (addCount acc x c) rest) t = _
    rw [ih, lookupCount_addCount]
    show _ = lookupCount acc t + ((if x = t then c else 0) + sumCounts rest t)
    by_cases h : x = t <;> simp [h, Nat.add_assoc]

theorem sumCounts_of_not_mem {m : FreqMap} {t : JStr}
    (h : t ∉ m.map Prod.fst) : sumCounts m t = 0 := by
  induction m with
  | nil => rfl
  | cons p rest ih =>
    obtain ⟨x, c⟩ := p
    simp only [List.map_cons, List.mem_cons] at h
    push_neg at h
    have hx : ¬ x = t := fun he => h.1 he.symm
    simp [sumCounts, hx, ih h.2]

theorem sumCounts_eq_lookupCount (m : FreqMap) (t : JStr) :
    nodupKeys m → sumCounts m t = lookupCount m t := by
  induction m with
  | nil => intro _; rfl
  | cons p rest ih =>
    intro hm
    obtain ⟨x, c⟩ := p
    simp only [nodupKeys, List.map_cons, List.nodup_cons] at hm
    by_cases h : x = t
    · subst h
      have hz : sumCounts rest x = 0 := sumCounts_of_not_mem hm.1
      simp [sumCounts, lookupCount, hz]
    · simp [sumCounts, lookupCount, h, ih hm.2]

theorem lookupCount_foldl_mergeInto (ms : List FreqMap) (acc : FreqMap) (t : JStr) :
    lookupCount (ms.foldl mergeInto acc) t =
      lookupCount acc t + (ms.map (fun m => sumCounts m t)).sum := by
  induction ms generalizing acc with
  | nil => simp
  | cons m rest ih =>
    simp only [List.foldl_cons, List.map_cons, List.sum_cons]
    rw [ih, lookupCount_mergeInto]
    omega

theorem lookupCount_mergeAll (ms : List FreqMap) (t : JStr)
    (h : ∀ m ∈ ms, nodupKeys m) :
    lookupCount (mergeAll ms) t = (ms.map (fun m => lookupCount m t)).sum := by
  show lookupCount (ms.foldl mergeInto []) t = _
  rw [lookupCount_foldl_mergeInto]
  have hmaps : ms.map (fun m => sumCounts m t) = ms.map (fun m => lookupCount m t) :=
    List.map_congr_left (fun m hm => sumCounts_eq_lookupCount m t (h m hm))
  simp [lookupCount, hmaps]

/-! ## Keys of the frequency maps -/

theorem map_fst_addCount (m : FreqMap) (tok : JStr) (k : Nat) :
    (addCount m tok k).map Prod.fst =
      if tok ∈ m.map Prod.fst then m.map Prod.fst
      else m.map Prod.fst ++ [tok] := by
  induction m with
  | nil => simp [addCount]
  | cons p rest ih =>
    obtain ⟨x, c⟩ := p
    by_cases hx : x = tok
    · subst hx; simp [addCount]
    · have hxt : ¬ tok = x := fun he => hx he.symm
      simp only [addCount, if_neg hx, List.map_cons]
      rw [ih]
      by_cases hmem : tok ∈ rest.map Prod.fst <;>
        simp [List.mem_cons, hmem, hxt]

theorem nodupKeys_addCount (m : FreqMap) (tok : JStr) (k : Nat)
    (h : nodupKeys m) : nodupKeys (addCount m tok k) := by
  unfold nodupKeys at *
  rw [map_fst_addCount]
  by_cases hmem : tok ∈ m.map Prod.fst
  · simpa [hmem] using h
  · rw [if_neg hmem]
    rw [List.nodup_append]
    refine ⟨h, List.nodup_singleton tok, ?_⟩
    intro a ha hb
    rw [List.mem_singleton] at hb
    exact hmem (hb ▸ ha)

theorem nodupKeys_countTokens_aux (toks : List JStr) (acc : FreqMap)
    (h : nodupKeys acc) :
    nodupKeys (toks.foldl (fun m tok => addCount m tok 1) acc) := by
  induction toks generalizing acc with
  | nil => exact h
  | cons tok rest ih => exact ih _ (nodupKeys_addCount _ _ _ h)

theorem nodupKeys_countTokens (toks : List JStr) :
    nodupKeys (countTokens toks) :=
  nodupKeys_countTokens_aux toks [] (by simp [nodupKeys])

theorem insertDesc_perm (p : JStr × Nat) (l : FreqMap) :
    (insertDesc p l).Perm (p :: l) := by
  induction l with
  | nil => exact List.Perm.refl _
  | cons q rest ih =>
    by_cases h : q.2 ≤ p.2
    · rw [insertDesc, if_pos h]
    · rw [insertDesc, if_neg h]
      exact (ih.cons q).trans (List.Perm.swap p q rest)

theorem sortDesc_perm (m : FreqMap) : (sortDesc m).Perm m := by
  induction m with
  | nil => exact List.Perm.refl _
  | cons p rest ih =>
    exact (insertDesc_perm p (sortDesc rest)).trans (ih.cons p)

theorem nodupKeys_sortDesc (m : FreqMap) (h : nodupKeys m) :
    nodupKeys (sortDesc m) :=
  (((sortDesc_perm m).map Prod.fst).nodup_iff).2 h

theorem nodupKeys_take_sortDesc (m : FreqMap) (n : Nat) (h : nodupKeys m) :
    nodupKeys ((sortDesc m).take n) := by
  unfold nodupKeys
  rw [List.map_take]
  exact (List.take_sublist n _).nodup (nodupKeys_sortDesc m h)

theorem nodupKeys_mergeInto (acc m : FreqMap) (h : nodupKeys acc) :
    nodupKeys (mergeInto acc m) := by
  induction m generalizing acc with
  | nil => exact h
  | cons p rest ih => exact ih _ (nodupKeys_addCount _ _ _ h)

theorem nodupKeys_mergeAll_aux (ms : List FreqMap) (acc : FreqMap)
    (h : nodupKeys acc) : nodupKeys (ms.foldl mergeInto acc) := by
  induction ms generalizing acc with
  | nil => exact h
  | cons m rest ih => exact ih _ (nodupKeys_mergeInto acc m h)

theorem nodupKeys_mergeAll (ms : List FreqMap) : nodupKeys (mergeAll ms) :=
  nodupKeys_mergeAll_aux ms [] (by simp [nodupKeys])

theorem nodupKeys_rankedKeywordFreq (c : ChannelSample) :
    nodupKeys (rankedKeywordFreq c) :=
  nodupKeys_take_sortDesc _ _ (nodupKeys_countTokens _)

theorem nodupKeys_rankedHashtagFreq (c : ChannelSample) :
    nodupKeys (rankedHashtagFreq c) :=
  nodupKeys_take_sortDesc _ _ (nodupKeys_countTokens _)

theorem nodupKeys_rankedFirstWordFreq (c : ChannelSample) :
    nodupKeys (rankedFirstWordFreq c) :=
  nodupKeys_take_sortDesc _ _ (nodupKeys_countTokens _)

theorem lookupCount_agg (f : ChannelSample → FreqMap)
    (hf : ∀ c, nodupKeys (f c)) (cs : List ChannelSample) (t : JStr) :
    lookupCount (mergeAll (cs.map f)) t =
      (cs.map (fun c => lookupCount (f c) t)).sum := by
  rw [lookupCount_mergeAll]
  · rw [List.map_map]
    rfl
  · intro m hm
    rw [List.mem_map] at hm
    obtain ⟨c, _, rfl⟩ := hm
    exact hf c

/-! ## Order and stability of the ranked lists -/

theorem mem_insertDesc {x p : JStr × Nat} {l : FreqMap}
    (h : x ∈ insertDesc p l) : x = p ∨ x ∈ l := by
  induction l with
  | nil => simpa [insertDesc] using h
  | cons q rest ih =>
    by_cases hq : q.2 ≤ p.2
    · rw [insertDesc, if_pos hq] at h
      simpa [List.mem_cons] using h
    · rw [insertDesc, if_neg hq] at h
      rcases List.mem_cons.1 h with h1 | h1
      · exact Or.inr (h1 ▸ List.mem_cons_self q rest)
      · rcases ih h1 with h2 | h2
        · exact Or.inl h2
        · exact Or.inr (List.mem_cons_of_mem q h2)

theorem sortedDesc_insertDesc (p : JStr × Nat) (l : FreqMap) :
    sortedDesc l → sortedDesc (insertDesc p l) := by
  induction l with
  | nil => intro _; simp [sortedDesc, insertDesc]
  | cons q rest ih =>
    intro h
    rw [sortedDesc, List.pairwise_cons] at h
    obtain ⟨hq, hrest⟩ := h
    by_cases hle : q.2 ≤ p.2
    · rw [insertDesc, if_pos hle]
      refine List.Pairwise.cons ?_ (List.Pairwise.cons hq hrest)
      intro x hx
      rcases List.mem_cons.1 hx with rfl | hx'
      · exact hle
      · exact le_trans (hq x hx') hle
    · rw [insertDesc, if_neg hle]
      refine List.Pairwise.cons ?_ (ih hrest)
      intro x hx
      rcases mem_insertDesc hx with rfl | hx'
      · exact le_of_not_le hle
      · exact hq x hx'

theorem sortedDesc_sortDesc (m : FreqMap) : sortedDesc (sortDesc m) := by
  induction m with
  | nil => simp [sortedDesc, sortDesc]
  | cons p rest ih => exact sortedDesc_insertDesc p _ ih

theorem filter_insertDesc (p : JStr × Nat) (l : FreqMap) (c : Nat) :
    (insertDesc p l).filter (fun q => q.2 == c) =
      ((p :: l).filter (fun q => q.2 == c) : FreqMap) := by
  induction l with
  | nil => rfl
  | cons q rest ih =>
    by_cases hle : q.2 ≤ p.2
    · rw [insertDesc, if_pos hle]
    · rw [insertDesc, if_neg hle]
      by_cases hp : p.2 = c
      · have hq : ¬ q.2 = c := by omega
        simp [List.filter_cons, hp, hq, ih]
      · by_cases hqc : q.2 = c <;> simp [List.filter_cons, hp, hqc, ih]

theorem filter_sortDesc (m : FreqMap) (c : Nat) :
    (sortDesc m).filter (fun q => q.2 == c) = m.filter (fun q => q.2 == c) := by
  induction m with
  | nil => rfl
  | cons p rest ih =>
    show (insertDesc p (sortDesc rest)).filter _ = _
    rw [filter_insertDesc]
    by_cases hp : p.2 = c <;> simp [List.filter_cons, hp, ih]

/-! ## Trimming lemmas -/

theorem dropWhile_idem (p : Char → Bool) (l : JStr) :
    (l.dropWhile p).dropWhile p = l.dropWhile p := by
  induction l with
  | nil => rfl
  | cons x rest ih =>
    by_cases h : p x
    · simp [List.dropWhile_cons, h, ih]
    · simp [List.dropWhile_cons, h]

theorem dropWhile_append_singleton (p : Char → Bool) (ys : JStr) (x : Char)
    (hx : p x = false) :
    (ys ++ [x]).dropWhile p = ys.dropWhile p ++ [x] := by
  induction ys with
  | nil => simp [List.dropWhile_cons, hx]
  | cons y rest ih =>
    by_cases h : p y <;> simp [List.dropWhile_cons, h, ih]

theorem length_dropWhile_le (p : Char → Bool) (l : JStr) :
    (l.dropWhile p).length ≤ l.length := by
  induction l with
  | nil => simp
  | cons x rest ih =>
    by_cases h : p x
    · rw [List.dropWhile_cons, if_pos h]
      exact le_trans ih (Nat.le_succ _)
    · rw [List.dropWhile_cons, if_neg h]

theorem head_not_ws_of_dropWhile_eq (p : Char → Bool) (x : Char) (t : JStr)
    (h : (x :: t).dropWhile p = x :: t) : p x = false := by
  by_cases hx : p x
  · exfalso
    rw [List.dropWhile_cons, if_pos hx] at h
    have hlen := congrArg List.length h
    have hle := length_dropWhile_le p t
    simp at hlen
    omega
  · simpa using hx

theorem jsTrim_no_trailing (s : JStr) :
    (jsTrim s).reverse.dropWhile isJsWs = (jsTrim s).reverse := by
  unfold jsTrim
  rw [List.reverse_reverse]
  exact dropWhile_idem _ _

theorem jsTrim_no_leading (s : JStr) :
    (jsTrim s).dropWhile isJsWs = jsTrim s := by
  unfold jsTrim
  have ha : (s.dropWhile isJsWs).dropWhile isJsWs = s.dropWhile isJsWs :=
    dropWhile_idem _ _
  cases hcase : s.dropWhile isJsWs with
  | nil => simp [hcase]
  | cons x t =>
    have hx : isJsWs x = false :=
      head_not_ws_of_dropWhile_eq _ x t (by rw [hcase] at ha; exact ha)
    rw [List.reverse_cons, dropWhile_append_singleton _ _ _ hx,
      List.reverse_append]
    simp [List.dropWhile_cons, hx]

/-! ## The claims -/

/-- Claim C1: for every analysis result, the SEO recommendation is present
in the output if and only if a resolvable TargetVideo was supplied with the
input; when no target video was resolved, the recommendation field is
absent. -/
theorem claim_C1_recommendation_iff_target :
    ∀ (input : AnalyzeInput) (r : ApiResponse),
      analyzeChannelsAndSuggest input = .ok r →
      (r.recommendation.isSome = true ↔ input.targetVideo.isSome = true) := by
  intro input r h
  unfold analyzeChannelsAndSuggest at h
  split at h
  · exact absurd h (by simp)
  · have hr : r = analyzeCore input := by
      injection h with h'
      exact h'.symm
    subst hr
    cases htv : input.targetVideo <;> simp [analyzeCore, htv]

theorem claim_C1_witness :
    (analyzeCore sampleInput).recommendation.isSome = true :=
  (claim_C1_recommendation_iff_target sampleInput (analyzeCore sampleInput)
    rfl).2 rfl

/-- Claim C2: for every request to the POST handler in which body parsing or
the analysis throws, the handler returns status 400 with body exactly
`\x7b error: message \x7d`, where message is the thrown Error's message when
the thrown value is an Error and "Unexpected error" otherwise; the error
body carries no analysis fields (the `RouteBody.errorBody` constructor holds
only the message). -/
theorem claim_C2_failure_maps_to_400 :
    (∀ e : JsThrown,
        POST (.error e) =
          { status := 400, body := .errorBody (thrownMessage e) }) ∧
    (∀ m : JStr, thrownMessage (.errorObj m) = m) ∧
    thrownMessage .other = "Unexpected error".data ∧
    (∀ (p : AnalyzeInput) (se : SeoError),
        analyzeChannelsAndSuggest p = .error se →
        POST (.ok p) =
          { status := 400, body := .errorBody (errorMessage se) }) := by
  refine ⟨fun e => rfl, fun m => rfl, rfl, ?_⟩
  intro p se h
  simp [POST, h]

theorem claim_C2_witness :
    POST (.ok ⟨[], none⟩) =
      { status := 400, body := .errorBody (errorMessage .invalidInput) } :=
  claim_C2_failure_maps_to_400.2.2.2 ⟨[], none⟩ .invalidInput rfl

/-- Claim C3: for every list of ChannelSamples and every token, the count of
that token in each aggregate map (keywords, hashtags, opening words) equals
the sum of that token's counts across the per-channel ranked maps, and each
aggregate output list is the merged map re-ranked by the same
descending-count rule and truncated to the fixed top-N. -/
theorem claim_C3_aggregate_counts :
    ∀ (cs : List ChannelSample) (t : JStr) (input : AnalyzeInput),
      lookupCount (aggKeywordMap cs) t =
        (cs.map (fun c => lookupCount (rankedKeywordFreq c) t)).sum ∧
      lookupCount (aggHashtagMap cs) t =
        (cs.map (fun c => lookupCount (rankedHashtagFreq c) t)).sum ∧
      lookupCount (aggFirstWordMap cs) t =
        (cs.map (fun c => lookupCount (rankedFirstWordFreq c) t)).sum ∧
      (analyzeCore input).aggregateKeywords =
        rank topN (aggKeywordMap input.channels) ∧
      (analyzeCore input).aggregateHashtags =
        rank topN (aggHashtagMap input.channels) ∧
      (analyzeCore input).aggregateFirstWords =
        rank topN (aggFirstWordMap input.channels) := by
  intro cs t input
  exact ⟨lookupCount_agg _ nodupKeys_rankedKeywordFreq cs t,
    lookupCount_agg _ nodupKeys_rankedHashtagFreq cs t,
    lookupCount_agg _ nodupKeys_rankedFirstWordFreq cs t,
    rfl, rfl, rfl⟩

/-- Claim C4: every ranked keyword/hashtag list produced by any operation —
per-channel ranking of a token count, the per-channel output lists of
analyzeChannel, and the aggregate lists ranked from any merged map,
including the three aggregates of analyzeCore — contains no duplicate
tokens and is sorted by non-increasing count with ties in first-seen order
(the sort is stable: the entries of any given count appear exactly in their
original, first-seen, order), and the entries displayed by prettyFrequency
are likewise ordered by non-increasing count with first-seen tie-break. -/
theorem claim_C4_ranked_lists_sorted_nodup :
    ∀ (toks : List JStr) (n : Nat) (m : FreqMap) (c : Nat)
      (ms : List FreqMap) (cs : List ChannelSample) (ch : ChannelSample),
      (rank n (countTokens toks)).Nodup ∧
      (rank n (mergeAll ms)).Nodup ∧
      (rank topN (aggKeywordMap cs)).Nodup ∧
      (rank topN (aggHashtagMap cs)).Nodup ∧
      (rank topN (aggFirstWordMap cs)).Nodup ∧
      ((analyzeChannel ch).topKeywords).Nodup ∧
      ((analyzeChannel ch).commonHashtags).Nodup ∧
      sortedDesc ((sortDesc (countTokens toks)).take n) ∧
      sortedDesc (sortDesc m) ∧
      (sortDesc m).filter (fun q => q.2 == c) =
        m.filter (fun q => q.2 == c) ∧
      sortedDesc (prettyEntries m) ∧
      ((prettyEntries m).filter (fun q => q.2 == c)).Sublist
        (m.filter (fun q => q.2 == c)) := by
  intro toks n m c ms cs ch
  refine ⟨?_, ?_, ?_, ?_, ?_, nodupKeys_rankedKeywordFreq ch,
    nodupKeys_rankedHashtagFreq ch, ?_, sortedDesc_sortDesc m,
    filter_sortDesc m c, ?_, ?_⟩
  · exact nodupKeys_take_sortDesc _ n (nodupKeys_countTokens toks)
  · exact nodupKeys_take_sortDesc _ n (nodupKeys_mergeAll ms)
  · exact nodupKeys_take_sortDesc _ topN (nodupKeys_mergeAll _)
  · exact nodupKeys_take_sortDesc _ topN (nodupKeys_mergeAll _)
  · exact nodupKeys_take_sortDesc _ topN (nodupKeys_mergeAll _)
  · exact List.Pairwise.sublist (List.take_sublist n _) (sortedDesc_sortDesc _)
  · exact List.Pairwise.sublist (List.take_sublist 6 _) (sortedDesc_sortDesc m)
  · rw [← filter_sortDesc m c]
    exact List.Sublist.filter _ (List.take_sublist 6 _)

/-- Claim C5: for every ChannelSample, averageTitleLength is non-negative,
equals 0 when the channel has no titles, and equals the arithmetic mean of
the character counts of the channel's titles (stated multiplicatively:
mean times the number of titles is the total character count). -/
theorem claim_C5_average_title_length :
    ∀ c : ChannelSample,
      0 ≤ (analyzeChannel c).averageTitleLength ∧
      (channelTitles c = [] → (analyzeChannel c).averageTitleLength = 0) ∧
      (channelTitles c ≠ [] →
        (analyzeChannel c).averageTitleLength *
            ((channelTitles c).length : ℚ) =
          (((channelTitles c).map List.length).sum : ℚ)) := by
  intro c
  have havg :
      (analyzeChannel c).averageTitleLength = avgLen (channelTitles c) := rfl
  rw [havg]
  unfold avgLen
  refine ⟨?_, ?_, ?_⟩
  · by_cases h : (channelTitles c).isEmpty
    · simp [h]
    · rw [if_neg h]
      exact div_nonneg (Nat.cast_nonneg _) (Nat.cast_nonneg _)
  · intro h
    simp [h]
  · intro h
    have hne : ¬ (channelTitles c).isEmpty = true := by
      simp [List.isEmpty_iff, h]
    rw [if_neg hne, div_mul_cancel₀]
    exact Nat.cast_ne_zero.2 (fun hlen => h (List.length_eq_zero.1 hlen))

theorem claim_C5_witness :
    (analyzeChannel twoTitleChannel).averageTitleLength *
        ((channelTitles twoTitleChannel).length : ℚ) =
      (((channelTitles twoTitleChannel).map List.length).sum : ℚ) :=
  (claim_C5_average_title_length twoTitleChannel).2.2 (by decide)

/-- Claim C6: an empty channel list (or one in which no channel yields
parseable text) makes the analysis fail with InvalidInput and no analyses;
the route maps it to a 400 response carrying the user-facing message; and
the UI rejects an empty channel list with an error message before any
request is sent. -/
theorem claim_C6_invalid_input :
    (∀ (s : UIState) (ci vu : JStr) (f : FetchResult), channelsOf ci = [] →
        (handleAnalyze s ci vu f).2 = none ∧
        (handleAnalyze s ci vu f).1.error = some addChannelMsg) ∧
    (∀ input : AnalyzeInput, input.channels = [] →
        analyzeChannelsAndSuggest input = .error .invalidInput) ∧
    (∀ input : AnalyzeInput,
        (∀ c ∈ input.channels, noParseableText c = true) →
        analyzeChannelsAndSuggest input = .error .invalidInput) ∧
    (∀ input : AnalyzeInput, input.channels = [] →
        POST (.ok input) =
          { status := 400, body := .errorBody (errorMessage .invalidInput) }) := by
  refine ⟨?_, ?_, ?_, ?_⟩
  · intro s ci vu f h
    constructor <;> simp [handleAnalyze, h]
  · intro input h
    simp [analyzeChannelsAndSuggest, h]
  · intro input h
    have hall : input.channels.all noParseableText = true :=
      List.all_eq_true.2 h
    simp [analyzeChannelsAndSuggest, hall]
  · intro input h
    simp [POST, analyzeChannelsAndSuggest, h]

theorem claim_C6_witness :
    (handleAnalyze ⟨false, none, none⟩ [] [] (.throws .other)).2 = none ∧
    analyzeChannelsAndSuggest ⟨[], none⟩ = .error .invalidInput :=
  ⟨(claim_C6_invalid_input.1 ⟨false, none, none⟩ [] [] (.throws .other)
      (by decide)).1,
    claim_C6_invalid_input.2.1 ⟨[], none⟩ rfl⟩

/-- Claim C7: the aggregator is deterministic and side-effect free — it is a
pure function of its input, so two runs on identical input yield identical
output (stated as the two-run equality over the analysis function). -/
theorem claim_C7_deterministic :
    ∀ i j : AnalyzeInput, i = j →
      analyzeChannelsAndSuggest i = analyzeChannelsAndSuggest j := by
  intro i j h
  rw [h]

theorem claim_C7_witness :
    analyzeChannelsAndSuggest sampleInput =
      analyzeChannelsAndSuggest sampleInput :=
  claim_C7_deterministic sampleInput sampleInput rfl

/-- Claim C8: whenever handleAnalyze sends a request (channels non-empty),
the body has exactly the inbound shape: channels is the list of non-blank
trimmed lines of the textarea, and targetVideoUrl is present if and only if
the video-URL field is non-empty after trimming (omitted, not sent as an
empty string, when blank). -/
theorem claim_C8_request_body_shape :
    ∀ (s : UIState) (ci vu : JStr) (f : FetchResult),
      channelsOf ci ≠ [] →
      (handleAnalyze s ci vu f).2 = some (buildRequestBody ci vu) ∧
      (buildRequestBody ci vu).channels = channelsOf ci ∧
      ((buildRequestBody ci vu).targetVideoUrl.isSome = true ↔
        jsTrim vu ≠ []) ∧
      (jsTrim vu = [] → (buildRequestBody ci vu).targetVideoUrl = none) ∧
      (jsTrim vu ≠ [] →
        (buildRequestBody ci vu).targetVideoUrl = some (jsTrim vu)) := by
  intro s ci vu f h
  have hne : (channelsOf ci).isEmpty = false := by
    simp [List.isEmpty_iff, h]
  refine ⟨?_, rfl, ?_, ?_, ?_⟩
  · cases f with
    | throws e => simp [handleAnalyze, hne]
    | ok respOk json =>
      by_cases hcond : (!respOk || jsonErrTruthy json.error) = true <;>
        simp [handleAnalyze, hne, hcond]
  · by_cases hv : jsTrim vu = [] <;>
      simp [buildRequestBody, hv, List.isEmpty_iff]
  · intro hv
    simp [buildRequestBody, hv]
  · intro hv
    simp [buildRequestBody, List.isEmpty_iff, hv]

theorem claim_C8_witness :
    (handleAnalyze ⟨false, none, none⟩ ['a'] ['u'] (.throws .other)).2 =
      some (buildRequestBody ['a'] ['u']) :=
  (claim_C8_request_body_shape ⟨false, none, none⟩ ['a'] ['u']
    (.throws .other) (by decide)).1

/-- Claim C9: every element of the channels array the UI sends is a
non-empty string with no leading or trailing whitespace (dropping leading
whitespace from it or from its reversal changes nothing). -/
theorem claim_C9_channels_trimmed_nonempty :
    ∀ (ci : JStr), ∀ c ∈ channelsOf ci,
      c ≠ [] ∧ c.dropWhile isJsWs = c ∧
      c.reverse.dropWhile isJsWs = c.reverse := by
  intro ci c hc
  unfold channelsOf at hc
  rw [List.mem_filter] at hc
  obtain ⟨hmem, hpred⟩ := hc
  rw [List.mem_map] at hmem
  obtain ⟨line, _, rfl⟩ := hmem
  refine ⟨?_, jsTrim_no_leading line, jsTrim_no_trailing line⟩
  intro hnil
  rw [hnil] at hpred
  simp at hpred

theorem claim_C9_witness :
    (['a'] : JStr) ≠ [] ∧ (['a'] : JStr).dropWhile isJsWs = ['a'] ∧
      (['a'] : JStr).reverse.dropWhile isJsWs = (['a'] : JStr).reverse :=
  claim_C9_channels_trimmed_nonempty " a ".data ['a'] (by decide)

/-- Claim C10 counterexample: the claim "after every completed invocation of
handleAnalyze, at most one of the error and data states is non-null" fails
at a concrete input: starting from a state holding the data of a previous
successful run, invoking handleAnalyze with an empty channel list takes the
early-return path, which sets error but leaves the stale data in place, so
both are non-null afterwards. -/
theorem claim_C10_counterexample :
    (handleAnalyze ⟨false, none, some emptyApiResponse⟩ [] []
        (.throws .other)).1.error ≠ none ∧
    (handleAnalyze ⟨false, none, some emptyApiResponse⟩ [] []
        (.throws .other)).1.data ≠ none := by
  decide

/-- Claim C10 (amended): after every completed invocation of handleAnalyze
that passes the empty-channel guard, isLoading is false and exactly one of
the error and data states is non-null: on success data holds the response
and error is null, on failure error holds a message and data is null.  (The
early-return path for an empty channel list sets error and leaves isLoading
and data untouched, so stale data from a previous run may remain beside the
new error.) -/
theorem claim_C10_amended_state_invariant :
    ∀ (s : UIState) (ci vu : JStr) (f : FetchResult),
      channelsOf ci ≠ [] →
      (handleAnalyze s ci vu f).1.isLoading = false ∧
      (((handleAnalyze s ci vu f).1.error = none ∧
          (handleAnalyze s ci vu f).1.data ≠ none) ∨
        ((handleAnalyze s ci vu f).1.error ≠ none ∧
          (handleAnalyze s ci vu f).1.data = none)) := by
  intro s ci vu f h
  have hne : (channelsOf ci).isEmpty = false := by
    simp [List.isEmpty_iff, h]
  cases f with
  | throws e => constructor <;> simp [handleAnalyze, hne]
  | ok respOk json =>
    by_cases hcond : (!respOk || jsonErrTruthy json.error) = true <;>
      constructor <;> simp [handleAnalyze, hne, hcond]

theorem claim_C10_witness :
    (handleAnalyze ⟨false, none, none⟩ ['a'] [] (.throws .other)).1.isLoading =
      false :=
  (claim_C10_amended_state_invariant ⟨false, none, none⟩ ['a'] []
    (.throws .other) (by decide)).1
